import Mathlib

/-!
Verification development for a retrieval-augmented YouTube-advice chatbot.

The model is a shallow embedding of the two core modules:
* `transcript_processor.py` — parsing transcript lines into timestamped
  segments (`parse_line`, `load_transcript_lines`, `parse_timestamp`);
* `advisor.py` — ranking segments against a question
  (`find_relevant_segments`), building the grounding prompt
  (`create_context_prompt`) and orchestrating an answer (`ask`).

External collaborators (the sentence-transformer embedder, sklearn's
cosine similarity, and the OpenAI chat endpoint) are modelled as fields of
an `AdvisorEnv` record: an embedding call may fail (`Except`), similarity
is an arbitrary numeric scoring function, and generation may fail.
Python floats are modelled as rationals; Python exceptions as the
`Except.error` constructor carrying the exception's string rendering.
Call counts to the external collaborators are recorded explicitly in the
outcome records so that the "no call is made on this path" contracts are
statable.

Strings are Lean `String`s; Python's `str.strip` and the regex whitespace
class `\s` are modelled over the ASCII whitespace characters.
-/

namespace YTAdvisor

/-- Model of Python's whitespace class (`\s` and `str.strip`) over the
ASCII range: space, tab, newline, carriage return, vertical tab, form feed. -/
def isPySpace (c : Char) : Bool :=
  c == ' ' || c == '\t' || c == '\n' || c == '\r' || c == '\x0b' || c == '\x0c'

/-- Model of Python's `str.strip()`: remove leading and trailing whitespace. -/
def pyStrip (l : List Char) : List Char :=
  ((l.dropWhile isPySpace).reverse.dropWhile isPySpace).reverse

/-- Model of Python's substring containment test `needle in hay`. -/
def hasSub (hay needle : List Char) : Bool :=
  match hay with
  | [] => needle.isEmpty
  | c :: t => needle.isPrefixOf (c :: t) || hasSub t needle

theorem hasSub_iff (hay needle : List Char) :
    hasSub hay needle = true ↔ needle <:+: hay := by
  induction hay with
  | nil =>
    simp [hasSub, List.isEmpty_iff]
  | cons c t ih =>
    simp [hasSub, ih, List.infix_cons_iff]

/-- `TranscriptSegment` from `transcript_processor.py`: a timestamped unit
of transcript text; the embedding is attached later (absent = `none`). -/
structure TranscriptSegment where
  video_id : String
  video_title : String
  timestamp : String
  content : String
  embedding : Option (List ℚ) := none
deriving DecidableEq

/-- The regex `\d{2}:\d{2}:\d{2}` matched against exactly eight characters. -/
def matchesTs8 (l : List Char) : Bool :=
  match l with
  | [h1, h2, c1, m1, m2, c2, s1, s2] =>
    h1.isDigit && h2.isDigit && c1 == ':' && m1.isDigit && m2.isDigit &&
      c2 == ':' && s1.isDigit && s2.isDigit
  | _ => false

/-- `re.match(r'\d{2}:\d{2}:\d{2}', s)`: the first eight characters match
the timestamp pattern (an unanchored-at-the-end prefix match). -/
def hasTs8AtStart (l : List Char) : Bool :=
  matchesTs8 (l.take 8)

/-- `TranscriptProcessor.parse_timestamp`: strip, keep the string if it
starts with the timestamp pattern, else fall back to `"00:00:00"`.
(Dead code on the ingestion path: `load_transcript` matches the
timestamp with its own regex and never calls this.) -/
def parse_timestamp (timestamp_str : String) : String :=
  let t := pyStrip timestamp_str.data
  if hasTs8AtStart t then String.mk t else "00:00:00"

/-- The static `video_metadata` table of `TranscriptProcessor`. -/
def video_metadata : List (String × String) :=
  [("aprilynne", "Improving Video Introductions"),
   ("hayden", "YouTube Storytelling Techniques")]

/-- `self.video_metadata.get(video_id, video_id)`. -/
def lookup_title (video_id : String) : String :=
  match video_metadata.lookup video_id with
  | some t => t
  | none => video_id

/-- The body of the per-line loop of `TranscriptProcessor.load_transcript`:
strip the line, match `re.match(r'(\d{2}:\d{2}:\d{2})\s+(.+)', line)`, and
on success build the segment from the two groups.  The regex semantics on a
stripped line: the first eight characters match the timestamp pattern, at
least one whitespace character follows, and group 2 is the maximal run of
non-newline characters after the (greedy) whitespace run. -/
def parse_line (video_id video_title : String) (rawLine : String) :
    Option TranscriptSegment :=
  let line := pyStrip rawLine.data
  if hasTs8AtStart line then
    match line.drop 8 with
    | [] => none
    | r :: rs =>
      if isPySpace r then
        let content := (rs.dropWhile isPySpace).takeWhile (fun c => c != '\n')
        if content.isEmpty then none
        else some ⟨video_id, video_title, String.mk (line.take 8),
                   String.mk content, none⟩
      else none
  else none

/-- The line loop of `TranscriptProcessor.load_transcript`: lines that match
the timestamp regex each contribute one segment, all other lines none. -/
def load_transcript_lines (video_id video_title : String)
    (lines : List String) : List TranscriptSegment :=
  lines.filterMap (parse_line video_id video_title)

/-- External collaborators of `YouTubeAdvisor`, specified at the boundary:
the sentence-transformer embedder (`processor.embedder.encode`, may raise),
sklearn's `cosine_similarity` (an opaque numeric scoring function), and the
OpenAI chat-completions call (may raise). -/
structure AdvisorEnv where
  embed : String → Except String (List ℚ)
  similarity : List ℚ → List ℚ → ℚ
  generate : String → String → Except String String

/-- The `out_of_scope_terms` list from `find_relevant_segments`. -/
def out_of_scope_terms : List String :=
  ["ad spend", "advertising", "monetization", "revenue", "analytics"]

/-- Model of Python's `str.lower()`(character-wise lowering, as Lean's
`String.toLower` also does, stated on the character list so that it is
structurally computable). -/
def pyLower (l : List Char) : List Char := l.map Char.toLower

/-- `any(term in question.lower() for term in out_of_scope_terms)`. -/
def is_out_of_scope (question : String) : Bool :=
  out_of_scope_terms.any (fun term => hasSub (pyLower question.data) term.data)

/-- The similarity loop of `find_relevant_segments`: every segment with a
non-absent embedding is paired with its similarity score, in corpus order. -/
def scoredSims (env : AdvisorEnv) (question_embedding : List ℚ)
    (segments : List TranscriptSegment) : List (ℚ × TranscriptSegment) :=
  segments.filterMap (fun seg =>
    seg.embedding.map (fun emb => (env.similarity question_embedding emb, seg)))

/-- The comparison of `similarities.sort(key=lambda x: x[0], reverse=True)`:
`a` may stay before `b` iff `b`'s score is at most `a`'s.  Python's sort is
stable, and so is `List.mergeSort`, so sorting with this comparison models
the descending stable sort exactly. -/
def descBySim (a b : ℚ × TranscriptSegment) : Bool := decide (b.1 ≤ a.1)

/-- Result of `find_relevant_segments`, instrumented with the number of
embedding-provider invocations and with the similarity list the code built
(empty when the loop was never reached). -/
structure RankOutcome where
  result : Except String (List TranscriptSegment)
  embedCalls : Nat
  sims : List (ℚ × TranscriptSegment)

/-- `YouTubeAdvisor.find_relevant_segments`: empty corpus short-circuits;
otherwise the question is embedded (a raise propagates), every embedded
segment is scored, the scored list is sorted descending (stable), the
out-of-scope gate may force an empty result, and otherwise the top
`top_k` segments are returned with no similarity floor. -/
def find_relevant_segments (env : AdvisorEnv) (segments : List TranscriptSegment)
    (question : String) (top_k : Nat) : RankOutcome :=
  if segments.isEmpty then ⟨.ok [], 0, []⟩
  else
    match env.embed question with
    | .error e => ⟨.error e, 1, []⟩
    | .ok question_embedding =>
      let similarities := scoredSims env question_embedding segments
      let sortedSims := similarities.mergeSort descBySim
      if is_out_of_scope question then ⟨.ok [], 1, similarities⟩
      else ⟨.ok ((sortedSims.take top_k).map Prod.snd), 1, similarities⟩

/-- The per-segment block of the context accumulator in
`create_context_prompt`. -/
def segment_block (seg : TranscriptSegment) : String :=
  "Video: " ++ seg.video_title ++ "\n" ++ "Timestamp: " ++ seg.timestamp ++
    "\n" ++ "Content: " ++ seg.content ++ "\n\n"

/-- Leading literal of the prompt f-string. -/
def prompt_head : String :=
  "\nYou are a YouTube growth advisor. Answer the user\x27s question based ONLY on the provided transcript context.\n\n"

/-- The literal between the context block and the question. -/
def prompt_question_label : String := "\n\nUSER QUESTION: "

/-- Trailing literal of the prompt f-string (the instruction block). -/
def prompt_instructions : String :=
  "\n\nINSTRUCTIONS:\n1. Provide actionable recommendations based only on the transcript content\n2. Include citations for each recommendation using this format: [source: \"Video Title\" t=HH:MM:SS]\n3. If the transcripts don\x27t contain enough information, say so clearly\n4. Be specific and practical - avoid generic advice\n5. Group related recommendations together\n6. Make sure to mention key terms from the question in your response\n7. Reference the video sources by name when providing advice\n\nANSWER:\n"

/-- `YouTubeAdvisor.create_context_prompt`: a pure string transform. -/
def create_context_prompt (question : String)
    (relevant_segments : List TranscriptSegment) : String :=
  let context := relevant_segments.foldl
    (fun acc seg => acc ++ segment_block seg) "TRANSCRIPT CONTEXT:\n\n"
  prompt_head ++ context ++ prompt_question_label ++ question ++ prompt_instructions

/-- The fixed fallback message of `ask` (two adjacent Python string
literals, concatenated). -/
def fallback_message : String :=
  "I don\x27t have enough information in the provided transcripts to answer your question. Please ask about video introductions or storytelling techniques, which are covered in the available content."

/-- The system message passed to the generator in `ask`. -/
def system_message : String :=
  "You are a helpful YouTube growth advisor that provides grounded advice with citations."

/-- The literal error reply of `ask`'s `except` branch, with `{e}` the
string rendering of the caught exception. -/
def error_reply (e : String) : String :=
  "Sorry, I encountered an error while processing your question: " ++ e

/-- Result of `ask`, instrumented with collaborator call counts. -/
structure AskOutcome where
  result : Except String String
  embedCalls : Nat
  generateCalls : Nat

/-- `YouTubeAdvisor.ask`: rank (with the default `top_k = 5`; a raise from
ranking propagates — the try/except only wraps the generation call), fall
back on an empty ranking without generating, otherwise build the prompt and
generate, converting a generation failure into the literal error reply. -/
def ask (env : AdvisorEnv) (segments : List TranscriptSegment)
    (question : String) : AskOutcome :=
  let ranked := find_relevant_segments env segments question 5
  match ranked.result with
  | .error e => ⟨.error e, ranked.embedCalls, 0⟩
  | .ok relevant_segments =>
    if relevant_segments.isEmpty then ⟨.ok fallback_message, ranked.embedCalls, 0⟩
    else
      let prompt := create_context_prompt question relevant_segments
      match env.generate system_message prompt with
      | .ok answer => ⟨.ok answer, ranked.embedCalls, 1⟩
      | .error e => ⟨.ok (error_reply e), ranked.embedCalls, 1⟩

/-! ### Test fixtures shared by the concrete witnesses -/

/-- A concrete embedded segment. -/
def segA : TranscriptSegment :=
  ⟨"vid1", "Improving Video Introductions", "00:01:15", "keep intros short",
   some [1, 0]⟩

/-- A second concrete embedded segment. -/
def segB : TranscriptSegment :=
  ⟨"vid2", "YouTube Storytelling Techniques", "00:07:02", "open with a hook",
   some [0, 1]⟩

/-- An environment whose collaborators all succeed. -/
def envOk : AdvisorEnv :=
  ⟨fun _ => .ok [1, 0], fun a b => (a.zip b).foldl (fun acc p => acc + p.1 * p.2) 0,
   fun _ _ => .ok "generated answer"⟩

/-- An environment whose embedding provider fails at query time. -/
def envFailEmbed : AdvisorEnv :=
  ⟨fun _ => .error "embedding provider unavailable", fun _ _ => 0,
   fun _ _ => .ok "generated answer"⟩

/-- An environment whose generator fails. -/
def envFailGen : AdvisorEnv :=
  ⟨fun _ => .ok [1, 0], fun _ _ => 1, fun _ _ => .error "rate limit"⟩

/-! ### Helper lemmas -/

theorem is_out_of_scope_of_term (term question : String)
    (ht : term ∈ out_of_scope_terms)
    (hs : term.data <:+: pyLower question.data) :
    is_out_of_scope question = true := by
  simp only [is_out_of_scope, List.any_eq_true]
  exact ⟨term, ht, (hasSub_iff _ _).mpr hs⟩

theorem isEmpty_false_of_ne_nil {α : Type} {l : List α} (h : l ≠ []) :
    l.isEmpty = false := by
  cases l with
  | nil => exact absurd rfl h
  | cons a t => rfl

/-- Evaluation helper for concrete witnesses: ranking over a one-segment
corpus with a succeeding embedder and an in-scope question returns that
segment. -/
theorem rank_singleton_ok (env : AdvisorEnv) (seg : TranscriptSegment)
    (question : String) (emb v : List ℚ) (k : Nat)
    (hemb : seg.embedding = some emb) (hv : env.embed question = .ok v)
    (hscope : is_out_of_scope question = false) (hk : 1 ≤ k) :
    (find_relevant_segments env [seg] question k).result = .ok [seg] := by
  cases k with
  | zero => omega
  | succ n => simp [find_relevant_segments, hv, hscope, scoredSims, hemb]

/-! ### Claims -/

/-- C5: for every question and every `top_k`, on an empty corpus
`find_relevant_segments` returns the empty list immediately and the
embedding provider is not invoked (call count zero). -/
theorem claim_C5 (env : AdvisorEnv) (question : String) (top_k : Nat) :
    (find_relevant_segments env [] question top_k).result = .ok [] ∧
    (find_relevant_segments env [] question top_k).embedCalls = 0 :=
  ⟨rfl, rfl⟩

/-- C3: whenever the question contains a configured disqualifying keyword
as a case-insensitive substring (keyword list `out_of_scope_terms`), and
the embedding call does not raise, `find_relevant_segments` returns the
empty list for every corpus and every `top_k`, regardless of the
similarity scores. -/
theorem claim_C3 (env : AdvisorEnv) (segments : List TranscriptSegment)
    (question : String) (top_k : Nat) (term : String)
    (hterm : term ∈ out_of_scope_terms)
    (hsub : term.data <:+: pyLower question.data)
    (hembed : ∀ e, env.embed question ≠ .error e) :
    (find_relevant_segments env segments question top_k).result = .ok [] := by
  have hscope := is_out_of_scope_of_term term question hterm hsub
  by_cases hseg : segments.isEmpty = true
  · simp [find_relevant_segments, hseg]
  · cases h : env.embed question with
    | error e => exact absurd h (hembed e)
    | ok v => simp [find_relevant_segments, hseg, h, hscope]

/-- C3 witness: the question "How do I optimize my ad spend?" contains the
keyword "ad spend", so ranking returns the empty list on a corpus with an
embedded segment. -/
theorem claim_C3_witness :
    "ad spend" ∈ out_of_scope_terms ∧
    ("ad spend".data <:+: pyLower "How do I optimize my ad spend?".data) ∧
    (find_relevant_segments envOk [segA] "How do I optimize my ad spend?" 5).result = .ok [] :=
  ⟨by decide, (hasSub_iff _ _).mp (by decide),
   claim_C3 envOk [segA] "How do I optimize my ad spend?" 5 "ad spend"
     (by decide) ((hasSub_iff _ _).mp (by decide)) (fun e h => by simp [envOk] at h)⟩

/-- C10: for every non-empty corpus and every question — including
questions the out-of-scope gate rejects — `find_relevant_segments` invokes
the embedding provider exactly once, and (when the embedding succeeds) the
similarity list over all embedded segments is fully computed before the
gate decides the result; the no-embedding-call guarantee is specific to
the empty-corpus path. -/
theorem claim_C10 (env : AdvisorEnv) (segments : List TranscriptSegment)
    (question : String) (top_k : Nat) (hne : segments ≠ []) :
    (find_relevant_segments env segments question top_k).embedCalls = 1 ∧
    ∀ qvec, env.embed question = .ok qvec →
      (find_relevant_segments env segments question top_k).sims =
        scoredSims env qvec segments := by
  have hseg := isEmpty_false_of_ne_nil hne
  cases h : env.embed question with
  | error e =>
    constructor
    · simp [find_relevant_segments, hseg, h]
    · intro qvec hv
      exact absurd hv (by simp)
  | ok v =>
    constructor
    · by_cases hscope : is_out_of_scope question = true <;>
        simp [find_relevant_segments, hseg, h, hscope]
    · intro qvec hv
      injection hv with hv'
      subst hv'
      by_cases hscope : is_out_of_scope question = true <;>
        simp [find_relevant_segments, hseg, h, hscope]

/-- C10 witness: on a non-empty corpus and the gated question
"How do I optimize my ad spend?", the embedder is still called exactly
once and the similarity list is still fully computed. -/
theorem claim_C10_witness :
    (find_relevant_segments envOk [segA] "How do I optimize my ad spend?" 5).embedCalls = 1 ∧
    ∀ qvec, envOk.embed "How do I optimize my ad spend?" = .ok qvec →
      (find_relevant_segments envOk [segA] "How do I optimize my ad spend?" 5).sims =
        scoredSims envOk qvec [segA] :=
  claim_C10 envOk [segA] "How do I optimize my ad spend?" 5 (by simp)

/-- C6: whenever ranking returns an empty list, `ask` returns the fixed
literal fallback message and the generator is never invoked
(call count zero). -/
theorem claim_C6 (env : AdvisorEnv) (segments : List TranscriptSegment)
    (question : String)
    (h : (find_relevant_segments env segments question 5).result = .ok []) :
    (ask env segments question).result = .ok fallback_message ∧
    (ask env segments question).generateCalls = 0 := by
  constructor <;> · simp only [ask]; rw [h]; rfl

/-- C6 witness: on an empty corpus ranking yields `[]`, so `ask` returns
the fallback message without any generator call. -/
theorem claim_C6_witness :
    (ask envOk [] "How do I improve my intro?").result = .ok fallback_message ∧
    (ask envOk [] "How do I improve my intro?").generateCalls = 0 :=
  claim_C6 envOk [] "How do I improve my intro?" rfl

/-- C7: with a non-empty ranking result and a failing generator call,
`ask` returns (does not raise) a string embedding the failure reason —
the error description is a substring of the reply. -/
theorem claim_C7 (env : AdvisorEnv) (segments : List TranscriptSegment)
    (question : String) (rel : List TranscriptSegment) (e : String)
    (hrank : (find_relevant_segments env segments question 5).result = .ok rel)
    (hne : rel ≠ [])
    (hgen : env.generate system_message (create_context_prompt question rel) = .error e) :
    (ask env segments question).result = .ok (error_reply e) ∧
    e.data <:+: (error_reply e).data := by
  constructor
  · simp only [ask]
    rw [hrank]
    simp only [isEmpty_false_of_ne_nil hne, Bool.false_eq_true, if_false, hgen]
  · exact ⟨"Sorry, I encountered an error while processing your question: ".data,
      [], by simp [error_reply]⟩

/-- C7 witness: a generator failing with "rate limit" on a one-segment
ranking produces the literal error reply containing "rate limit". -/
theorem claim_C7_witness :
    (ask envFailGen [segA] "How do I improve my intro?").result =
      .ok (error_reply "rate limit") ∧
    "rate limit".data <:+: (error_reply "rate limit").data :=
  claim_C7 envFailGen [segA] "How do I improve my intro?" [segA] "rate limit"
    (rank_singleton_ok envFailGen segA "How do I improve my intro?" [1, 0] [1, 0] 5
      rfl rfl (by decide) (by decide))
    (by simp) rfl

/-! ### Prompt-containment machinery for C8 -/

theorem infix_extend_left {x m : List Char} (pre : List Char) (h : x <:+: m) :
    x <:+: pre ++ m := by
  obtain ⟨s, t, rfl⟩ := h
  exact ⟨pre ++ s, t, by simp⟩

theorem infix_extend_right {x m : List Char} (post : List Char) (h : x <:+: m) :
    x <:+: m ++ post := by
  obtain ⟨s, t, rfl⟩ := h
  exact ⟨s, t ++ post, by simp⟩

theorem title_infix_block (seg : TranscriptSegment) :
    seg.video_title.data <:+: (segment_block seg).data := by
  refine ⟨"Video: ".data,
    ("\n" ++ "Timestamp: " ++ seg.timestamp ++ "\n" ++ "Content: " ++
      seg.content ++ "\n\n").data, ?_⟩
  simp [segment_block]

theorem timestamp_infix_block (seg : TranscriptSegment) :
    seg.timestamp.data <:+: (segment_block seg).data := by
  refine ⟨("Video: " ++ seg.video_title ++ "\n" ++ "Timestamp: ").data,
    ("\n" ++ "Content: " ++ seg.content ++ "\n\n").data, ?_⟩
  simp [segment_block]

theorem content_infix_block (seg : TranscriptSegment) :
    seg.content.data <:+: (segment_block seg).data := by
  refine ⟨("Video: " ++ seg.video_title ++ "\n" ++ "Timestamp: " ++
    seg.timestamp ++ "\n" ++ "Content: ").data, "\n\n".data, ?_⟩
  simp [segment_block]

theorem acc_infix_foldl (segs : List TranscriptSegment) :
    ∀ acc : String,
      acc.data <:+: (segs.foldl (fun a seg => a ++ segment_block seg) acc).data := by
  induction segs with
  | nil => intro acc; exact List.infix_refl _
  | cons s rest ih =>
    intro acc
    simp only [List.foldl_cons]
    have h1 : acc.data <:+: (acc ++ segment_block s).data := by
      rw [String.data_append]
      exact ⟨[], (segment_block s).data, by simp⟩
    exact h1.trans (ih (acc ++ segment_block s))

theorem block_infix_foldl (seg : TranscriptSegment) (segs : List TranscriptSegment)
    (hmem : seg ∈ segs) :
    ∀ acc : String,
      (segment_block seg).data <:+:
        (segs.foldl (fun a s => a ++ segment_block s) acc).data := by
  induction segs with
  | nil => cases hmem
  | cons s rest ih =>
    intro acc
    simp only [List.foldl_cons]
    rcases List.mem_cons.mp hmem with rfl | h
    · have h1 : (segment_block seg).data <:+: (acc ++ segment_block seg).data := by
        rw [String.data_append]
        exact ⟨acc.data, [], by simp⟩
      exact h1.trans (acc_infix_foldl rest (acc ++ segment_block seg))
    · exact ih h (acc ++ segment_block s)

theorem context_infix_prompt (question : String) (segs : List TranscriptSegment) :
    ((segs.foldl (fun a s => a ++ segment_block s) "TRANSCRIPT CONTEXT:\n\n")).data <:+:
      (create_context_prompt question segs).data := by
  refine ⟨prompt_head.data,
    (prompt_question_label ++ question ++ prompt_instructions).data, ?_⟩
  simp [create_context_prompt]

set_option maxRecDepth 8192 in
/-- C8: `create_context_prompt` is a pure string function (a plain Lean
function of its two arguments) whose output contains each segment's
title, timestamp and content, contains the question, and contains the
citation-format instruction with the literal substring `[source: "`. -/
theorem claim_C8 (question : String) (segs : List TranscriptSegment) :
    (∀ seg ∈ segs,
      seg.video_title.data <:+: (create_context_prompt question segs).data ∧
      seg.timestamp.data <:+: (create_context_prompt question segs).data ∧
      seg.content.data <:+: (create_context_prompt question segs).data) ∧
    question.data <:+: (create_context_prompt question segs).data ∧
    "[source: \"".data <:+: (create_context_prompt question segs).data := by
  have hctx := context_infix_prompt question segs
  refine ⟨?_, ?_, ?_⟩
  · intro seg hmem
    have hblk := (block_infix_foldl seg segs hmem "TRANSCRIPT CONTEXT:\n\n").trans hctx
    exact ⟨(title_infix_block seg).trans hblk,
           (timestamp_infix_block seg).trans hblk,
           (content_infix_block seg).trans hblk⟩
  · refine ⟨(prompt_head ++
      (segs.foldl (fun a s => a ++ segment_block s) "TRANSCRIPT CONTEXT:\n\n") ++
      prompt_question_label).data, prompt_instructions.data, ?_⟩
    simp [create_context_prompt]
  · have h1 : "[source: \"".data <:+: prompt_instructions.data := by decide
    have h2 : prompt_instructions.data <:+: (create_context_prompt question segs).data := by
      refine ⟨(prompt_head ++
        (segs.foldl (fun a s => a ++ segment_block s) "TRANSCRIPT CONTEXT:\n\n") ++
        prompt_question_label ++ question).data, [], ?_⟩
      simp [create_context_prompt]
    exact h1.trans h2

/-- C8 witness: at a concrete two-segment input, the rendered prompt
contains both segments' titles, timestamps and contents, the question,
and the citation literal. -/
theorem claim_C8_witness :
    (∀ seg ∈ [segA, segB],
      seg.video_title.data <:+: (create_context_prompt "How do I improve my intro?" [segA, segB]).data ∧
      seg.timestamp.data <:+: (create_context_prompt "How do I improve my intro?" [segA, segB]).data ∧
      seg.content.data <:+: (create_context_prompt "How do I improve my intro?" [segA, segB]).data) ∧
    "How do I improve my intro?".data <:+:
      (create_context_prompt "How do I improve my intro?" [segA, segB]).data ∧
    "[source: \"".data <:+:
      (create_context_prompt "How do I improve my intro?" [segA, segB]).data :=
  claim_C8 "How do I improve my intro?" [segA, segB]

/-- C4 (amended): `ask` returns a string (never raises) whenever the
corpus is empty or the query-time embedding call succeeds; a query-time
embedding-provider failure, by contrast, propagates out of `ask` uncaught
(see the counterexample), because the try/except in `ask` only wraps the
generation call. -/
theorem claim_C4 (env : AdvisorEnv) (segments : List TranscriptSegment)
    (question : String)
    (h : segments = [] ∨ ∃ v, env.embed question = .ok v) :
    ∃ s, (ask env segments question).result = .ok s := by
  have main : ∀ rel, (find_relevant_segments env segments question 5).result = .ok rel →
      ∃ s, (ask env segments question).result = .ok s := by
    intro rel hr
    simp only [ask]
    rw [hr]
    by_cases hrel : rel.isEmpty = true
    · exact ⟨fallback_message, by simp only [hrel, if_true]⟩
    · simp only [hrel, Bool.false_eq_true, if_false]
      cases hg : env.generate system_message (create_context_prompt question rel) with
      | ok answer => exact ⟨answer, rfl⟩
      | error e => exact ⟨error_reply e, rfl⟩
  rcases h with rfl | ⟨v, hv⟩
  · exact main [] rfl
  · by_cases hseg : segments.isEmpty = true
    · exact main [] (by simp [find_relevant_segments, hseg])
    · by_cases hscope : is_out_of_scope question = true
      · exact main [] (by simp [find_relevant_segments, hseg, hv, hscope])
      · exact main ((((scoredSims env v segments).mergeSort descBySim).take 5).map Prod.snd)
          (by simp [find_relevant_segments, hseg, hv, hscope])

/-! ### Whitespace-stripping lemmas for the parsing claims -/

theorem dropWhile_self_of_append {p : Char → Bool} {x w : List Char}
    (h : (x ++ w).dropWhile p = x ++ w) : x.dropWhile p = x := by
  cases x with
  | nil => simp
  | cons a k =>
    simp only [List.cons_append, List.dropWhile_cons] at h ⊢
    by_cases hpa : p a = true
    · exfalso
      rw [if_pos hpa] at h
      have hlen := congrArg List.length h
      have hle := ((List.dropWhile_suffix (l := k ++ w) p).sublist).length_le
      simp only [List.length_cons, List.length_append] at hlen hle
      omega
    · simp [hpa]

theorem dropWhile_idem {p : Char → Bool} (l : List Char) :
    (l.dropWhile p).dropWhile p = l.dropWhile p := by
  cases hq : l.dropWhile p with
  | nil => simp
  | cons a t =>
    have hhead := List.head?_dropWhile_not p l
    rw [hq] at hhead
    simp only [List.head?_cons] at hhead
    exact List.dropWhile_cons_of_neg (by simp [hhead])

theorem dropWhile_self_of_prefix {p : Char → Bool} {x y : List Char}
    (hp : x <+: y) (hy : y.dropWhile p = y) : x.dropWhile p = x := by
  obtain ⟨w, rfl⟩ := hp
  exact dropWhile_self_of_append hy

theorem pyStrip_rev_fixed (l : List Char) :
    (pyStrip l).reverse.dropWhile isPySpace = (pyStrip l).reverse := by
  simp only [pyStrip, List.reverse_reverse]
  exact dropWhile_idem _

/-- A suffix of an already-stripped list needs no trailing strip: stripping
it is just dropping its leading whitespace. -/
theorem pyStrip_of_suffix {s l : List Char} (h : s <:+ pyStrip l) :
    pyStrip s = s.dropWhile isPySpace := by
  have h1 : s.dropWhile isPySpace <:+ pyStrip l :=
    (List.dropWhile_suffix isPySpace).trans h
  have h2 : (s.dropWhile isPySpace).reverse <+: (pyStrip l).reverse :=
    List.reverse_prefix.mpr h1
  have h3 : (s.dropWhile isPySpace).reverse.dropWhile isPySpace =
      (s.dropWhile isPySpace).reverse :=
    dropWhile_self_of_prefix h2 (pyStrip_rev_fixed l)
  simp only [pyStrip, h3, List.reverse_reverse]

theorem mem_of_pyStrip {c : Char} {l : List Char} (h : c ∈ pyStrip l) : c ∈ l := by
  simp only [pyStrip, List.mem_reverse] at h
  have h1 := (List.dropWhile_suffix isPySpace).sublist.subset h
  rw [List.mem_reverse] at h1
  exact (List.dropWhile_suffix isPySpace).sublist.subset h1

/-- Inversion principle for `parse_line`: a produced segment comes from a
stripped line whose first eight characters match the timestamp pattern,
followed by a whitespace character, with a non-empty content group. -/
theorem parse_line_some (vid title rawLine : String) (seg : TranscriptSegment)
    (h : parse_line vid title rawLine = some seg) :
    ∃ r rs, (pyStrip rawLine.data).drop 8 = r :: rs ∧
      isPySpace r = true ∧
      matchesTs8 ((pyStrip rawLine.data).take 8) = true ∧
      ((rs.dropWhile isPySpace).takeWhile (fun c => c != '\n')).isEmpty = false ∧
      seg = ⟨vid, title, String.mk ((pyStrip rawLine.data).take 8),
             String.mk ((rs.dropWhile isPySpace).takeWhile (fun c => c != '\n')),
             none⟩ := by
  simp only [parse_line, hasTs8AtStart] at h
  split at h
  · rename_i hts
    split at h
    · exact absurd h (by simp)
    · rename_i r rs hdrop
      split at h
      · rename_i hr
        split at h
        · exact absurd h (by simp)
        · rename_i hc
          refine ⟨r, rs, hdrop, hr, hts, by simpa using hc, ?_⟩
          injection h with h'
          exact h'.symm
      · exact absurd h (by simp)
  · exact absurd h (by simp)

/-- C9: every segment produced by the ingestion line loop has a timestamp
matching the two-digit `HH:MM:SS` pattern (the `"00:00:00"` fallback of
`parse_timestamp` is the other form the invariant admits, though the
ingestion path never needs it) and a non-empty content. -/
theorem claim_C9 (vid title : String) (lines : List String)
    (seg : TranscriptSegment) (h : seg ∈ load_transcript_lines vid title lines) :
    (matchesTs8 seg.timestamp.data = true ∨ seg.timestamp = "00:00:00") ∧
    seg.content ≠ "" := by
  obtain ⟨line, hline, hparse⟩ := List.mem_filterMap.mp h
  obtain ⟨r, rs, hdrop, hr, hts, hc, rfl⟩ :=
    parse_line_some vid title line seg hparse
  constructor
  · exact Or.inl hts
  · intro hcon
    have hnil : ((rs.dropWhile isPySpace).takeWhile (fun c => c != '\n')) = [] := by
      have := congrArg String.data hcon
      simpa using this
    rw [hnil] at hc
    simp at hc

/-- C9 witness: the fixture line `"00:01:15 keep intros short"` produces a
segment satisfying the invariant. -/
theorem claim_C9_witness :
    (matchesTs8 ("00:01:15" : String).data = true ∨
      ("00:01:15" : String) = "00:00:00") ∧
    ("keep intros short" : String) ≠ "" :=
  claim_C9 "vid1" "Improving Video Introductions"
    ["00:01:15 keep intros short"]
    ⟨"vid1", "Improving Video Introductions", "00:01:15", "keep intros short", none⟩
    (by decide)

/-! ### Spec-side rendering of the line grammar (for the refinement C2) -/

/-- Spec-side: "the trimmed line matches an HH:MM:SS timestamp prefix
followed by whitespace and text" — first eight characters of the trimmed
line match the pattern, the ninth is whitespace, and the trimmed remainder
is non-empty. -/
def spec_line_matches (rawLine : String) : Bool :=
  let t := pyStrip rawLine.data
  matchesTs8 (t.take 8) &&
    (match t.drop 8 with
     | [] => false
     | r :: _ => isPySpace r) &&
    !(pyStrip (t.drop 8)).isEmpty

/-- Spec-side: "the matched HH:MM:SS prefix". -/
def spec_timestamp (rawLine : String) : String :=
  String.mk ((pyStrip rawLine.data).take 8)

/-- Spec-side: "the trimmed remainder". -/
def spec_content (rawLine : String) : String :=
  String.mk (pyStrip ((pyStrip rawLine.data).drop 8))

/-- C2: for every newline-free input line (the only lines the loop ever
receives, since the file content is split on newlines), the parser
produces exactly one segment — with the matched timestamp prefix and the
trimmed remainder as content — when the trimmed line matches the grammar,
and zero segments otherwise. -/
theorem claim_C2 (vid title rawLine : String) (hNL : '\n' ∉ rawLine.data) :
    parse_line vid title rawLine =
      if spec_line_matches rawLine then
        some ⟨vid, title, spec_timestamp rawLine, spec_content rawLine, none⟩
      else none := by
  have hstrip : pyStrip ((pyStrip rawLine.data).drop 8) =
      ((pyStrip rawLine.data).drop 8).dropWhile isPySpace :=
    pyStrip_of_suffix (List.drop_suffix 8 _)
  simp only [parse_line, spec_line_matches, spec_timestamp, spec_content,
    hasTs8AtStart]
  by_cases hts : matchesTs8 ((pyStrip rawLine.data).take 8) = true
  · cases hdrop : (pyStrip rawLine.data).drop 8 with
    | nil =>
      rw [hdrop] at hstrip
      simp [hts, hdrop]
    | cons r rs =>
      rw [hdrop] at hstrip
      by_cases hr : isPySpace r = true
      · have htake : (rs.dropWhile isPySpace).takeWhile (fun c => c != '\n') =
            rs.dropWhile isPySpace := by
          apply List.takeWhile_eq_self_iff.mpr
          intro c hc
          have h1 : c ∈ rs := (List.dropWhile_suffix isPySpace).sublist.subset hc
          have h2 : c ∈ pyStrip rawLine.data := by
            apply List.mem_of_mem_drop (n := 8)
            rw [hdrop]
            exact List.mem_cons_of_mem r h1
          have h3 : c ∈ rawLine.data := mem_of_pyStrip h2
          have hcne : c ≠ '\n' := fun e => hNL (e ▸ h3)
          simpa using hcne
        rw [List.dropWhile_cons_of_pos hr] at hstrip
        by_cases hc : (rs.dropWhile isPySpace).isEmpty = true <;>
          simp [hts, hdrop, hr, htake, hstrip, hc]
      · simp [hts, hdrop, hr]
  · simp [hts]

/-- C2 witness: the line `"  00:01:15   keep intros short  "` (whitespace
around both groups) satisfies the grammar and parses to the matched prefix
and trimmed remainder; evaluated concretely. -/
theorem claim_C2_witness :
    ('\n' ∉ ("  00:01:15   keep intros short  " : String).data) ∧
    parse_line "vid1" "T" "  00:01:15   keep intros short  " =
      (if spec_line_matches "  00:01:15   keep intros short  " then
        some ⟨"vid1", "T", spec_timestamp "  00:01:15   keep intros short  ",
              spec_content "  00:01:15   keep intros short  ", none⟩
      else none) :=
  ⟨by decide, claim_C2 "vid1" "T" "  00:01:15   keep intros short  " (by decide)⟩

/-- C4 counterexample: the claim as stated is false — with a failing
embedding provider at query time and a non-empty corpus, `ask` raises
(the exception propagates past the orchestration boundary) instead of
returning a string. -/
theorem claim_C4_counterexample :
    (ask envFailEmbed [segA] "How do I improve my intro?").result =
      .error "embedding provider unavailable" := rfl

/-- C4 witness: with a succeeding embedder, `ask` returns a string. -/
theorem claim_C4_witness :
    ∃ s, (ask envOk [segA] "How do I improve my intro?").result = .ok s :=
  claim_C4 envOk [segA] "How do I improve my intro?" (.inr ⟨[1, 0], rfl⟩)

/-! ### C1: the ranking contract -/

theorem descBySim_trans : ∀ a b c, descBySim a b → descBySim b c → descBySim a c := by
  intro a b c hab hbc
  simp only [descBySim, decide_eq_true_eq] at *
  exact le_trans hbc hab

theorem descBySim_total : ∀ a b, descBySim a b || descBySim b a := by
  intro a b
  simp only [descBySim, Bool.or_eq_true, decide_eq_true_eq]
  exact le_total b.1 a.1

/-- C1: for a non-empty corpus, `top_k ≥ 1`, an in-scope question and a
succeeding embedding call, ranking returns exactly the first `top_k`
elements (all if fewer exist) of the scored embedded segments sorted by
similarity descending with ties kept in original corpus order (the sorted
list is a permutation of the scored list, pairwise descending, and
score-classes keep their original relative order); hence the result never
exceeds `top_k` elements, is drawn from the corpus, and no
minimum-similarity floor is applied (the length is exactly
`min top_k (number of embedded segments)`). -/
theorem claim_C1 (env : AdvisorEnv) (segments : List TranscriptSegment)
    (question : String) (top_k : Nat) (qvec : List ℚ)
    (hne : segments ≠ []) (hk : 1 ≤ top_k)
    (hscope : is_out_of_scope question = false)
    (hembed : env.embed question = .ok qvec) :
    ∃ (res : List TranscriptSegment) (sortedSims : List (ℚ × TranscriptSegment)),
      (find_relevant_segments env segments question top_k).result = .ok res ∧
      sortedSims.Perm (scoredSims env qvec segments) ∧
      sortedSims.Pairwise (fun a b => b.1 ≤ a.1) ∧
      (∀ q : ℚ, sortedSims.filter (fun p => decide (p.1 = q)) =
        (scoredSims env qvec segments).filter (fun p => decide (p.1 = q))) ∧
      res = (sortedSims.take top_k).map Prod.snd ∧
      res.length = min top_k (scoredSims env qvec segments).length ∧
      ∀ s ∈ res, s ∈ segments := by
  have hseg := isEmpty_false_of_ne_nil hne
  refine ⟨(((scoredSims env qvec segments).mergeSort descBySim).take top_k).map Prod.snd,
    (scoredSims env qvec segments).mergeSort descBySim, ?_, ?_, ?_, ?_, rfl, ?_, ?_⟩
  · simp [find_relevant_segments, hseg, hembed, hscope]
  · exact List.mergeSort_perm (scoredSims env qvec segments) descBySim
  · exact (List.sorted_mergeSort descBySim_trans descBySim_total
      (scoredSims env qvec segments)).imp
      (fun h => by simpa [descBySim] using h)
  · intro q
    have hall : ∀ x ∈ (scoredSims env qvec segments).filter
        (fun p => decide (p.1 = q)), (fun p => decide (p.1 = q)) x = true :=
      fun x hx => (List.mem_filter.mp hx).2
    have hpair : ((scoredSims env qvec segments).filter
        (fun p => decide (p.1 = q))).Pairwise (fun a b => descBySim a b) := by
      apply List.pairwise_of_forall_mem_list
      intro a ha b hb
      have ha' := (List.mem_filter.mp ha).2
      have hb' := (List.mem_filter.mp hb).2
      simp only [decide_eq_true_eq] at ha' hb'
      simp [descBySim, ha', hb']
    have hsub : List.Sublist
        ((scoredSims env qvec segments).filter (fun p => decide (p.1 = q)))
        ((scoredSims env qvec segments).mergeSort descBySim) :=
      List.sublist_mergeSort descBySim_trans descBySim_total hpair
        (List.filter_sublist _)
    have hsub2 : List.Sublist
        ((scoredSims env qvec segments).filter (fun p => decide (p.1 = q)))
        (((scoredSims env qvec segments).mergeSort descBySim).filter
          (fun p => decide (p.1 = q))) := by
      have h1 := hsub.filter (fun p => decide (p.1 = q))
      rwa [List.filter_eq_self.mpr hall] at h1
    have hperm : (((scoredSims env qvec segments).mergeSort descBySim).filter
        (fun p => decide (p.1 = q))).Perm
        ((scoredSims env qvec segments).filter (fun p => decide (p.1 = q))) :=
      (List.mergeSort_perm (scoredSims env qvec segments) descBySim).filter _
    exact (List.Sublist.eq_of_length hsub2 hperm.length_eq.symm).symm
  · simp [List.length_take]
  · intro s hs
    simp only [List.mem_map] at hs
    obtain ⟨p, hp, rfl⟩ := hs
    have hp2 : p ∈ (scoredSims env qvec segments).mergeSort descBySim :=
      List.mem_of_mem_take hp
    have hp3 : p ∈ scoredSims env qvec segments := List.mem_mergeSort.mp hp2
    simp only [scoredSims, List.mem_filterMap] at hp3
    obtain ⟨seg, hseg', hmap⟩ := hp3
    cases he : seg.embedding with
    | none => rw [he] at hmap; simp at hmap
    | some emb =>
      rw [he] at hmap
      have hps : (env.similarity qvec emb, seg) = p := by simpa using hmap
      rw [← hps]
      exact hseg'

/-- C1 witness: the contract instantiated on a concrete one-segment corpus
with an in-scope question and a succeeding embedder. -/
theorem claim_C1_witness :
    ∃ (res : List TranscriptSegment) (sortedSims : List (ℚ × TranscriptSegment)),
      (find_relevant_segments envOk [segA] "How do I improve my intro?" 5).result = .ok res ∧
      sortedSims.Perm (scoredSims envOk [1, 0] [segA]) ∧
      sortedSims.Pairwise (fun a b => b.1 ≤ a.1) ∧
      (∀ q : ℚ, sortedSims.filter (fun p => decide (p.1 = q)) =
        (scoredSims envOk [1, 0] [segA]).filter (fun p => decide (p.1 = q))) ∧
      res = (sortedSims.take 5).map Prod.snd ∧
      res.length = min 5 (scoredSims envOk [1, 0] [segA]).length ∧
      ∀ s ∈ res, s ∈ [segA] :=
  claim_C1 envOk [segA] "How do I improve my intro?" 5 [1, 0]
    (by simp) (by decide) (by decide) rfl

end YTAdvisor
